import Mathlib

/-!
Verification development for the Marshee conversational-memory backend.

The Python services are shallowly embedded as pure Lean functions:
* `PineconeService.select_namespaces`, `get_embedding`, `get_context`
  (app/pinecone_service.py) — external effects (the sentence-transformers
  model, the Pinecone index) become explicit oracle parameters whose
  outcomes are `Except` values; an exception raised by an external call is
  the `Except.error` case.
* `RedisService.add_message`, `create_and_save_summary`
  (app/redis_service.py) — the per-user Redis list becomes a `List Turn`
  (newest first, as `lpush` stores it) carried in an explicit state record.
* Similarity scores are modelled as `ℚ`; the claims under study depend only
  on order comparisons with the literal `0.7`, never on IEEE rounding.
-/

namespace Marshee

/-- Test whether `pat` occurs at the very start of `l`; character-list
analogue of string prefix testing, used to model the Python substring
operator. -/
def hasStart : List Char → List Char → Bool
  | _, [] => true
  | [], _ :: _ => false
  | c :: cs, p :: ps => c == p && hasStart cs ps

/-- Test whether `pat` occurs contiguously somewhere in `l`. -/
def occursIn (pat : List Char) : List Char → Bool
  | [] => pat.isEmpty
  | c :: cs => hasStart (c :: cs) pat || occursIn pat cs

/-- Model of the Python substring test `pat in s`. -/
def strContains (s pat : String) : Bool :=
  occursIn pat.data s.data

/-- Model of the Python idiom `any(word in q for word in ws)`. -/
def anyWordIn (ws : List String) (q : String) : Bool :=
  ws.any (fun w => strContains q w)

/-- ASCII case folding of one character, as the CPython `str.lower` method
acts on the ASCII range (every query and keyword in the source is ASCII). -/
def lowerChar (c : Char) : Char :=
  if 65 ≤ c.toNat && c.toNat ≤ 90 then Char.ofNat (c.toNat + 32) else c

/-- Model of the Python call `query.lower()`. -/
def strToLower (s : String) : String := ⟨s.data.map lowerChar⟩

/-- Model of Python slicing `s[:n]`, which truncates by code point. -/
def pyTruncate (s : String) (n : Nat) : String := ⟨s.data.take n⟩

/-- Health vocabulary of `select_namespaces` (app/pinecone_service.py line 83). -/
def healthWords : List String :=
  ["health", "sick", "disease", "vet", "illness", "symptom"]

/-- Nutrition/product vocabulary (line 86). -/
def productWords : List String :=
  ["food", "eat", "nutrition", "diet", "product", "toy", "buy"]

/-- Hygiene vocabulary (line 89). -/
def groomingWords : List String :=
  ["bath", "groom", "brush", "clean", "hygiene", "care"]

/-- Support vocabulary (line 92). -/
def companyWords : List String :=
  ["company", "help", "support", "service", "contact"]

/-- `PineconeService.select_namespaces` (app/pinecone_service.py lines 77–99):
starts from `["user_summary"]`, appends a namespace per keyword rule that
fires on the lowercased query, and falls back to `health_data` when no rule
fired. -/
def select_namespaces (query : String) : List String :=
  let query_lower := strToLower query
  let namespaces := ["user_summary"]
  let namespaces :=
    if anyWordIn healthWords query_lower then namespaces ++ ["health_data"] else namespaces
  let namespaces :=
    if anyWordIn productWords query_lower then namespaces ++ ["product_data"] else namespaces
  let namespaces :=
    if anyWordIn groomingWords query_lower then namespaces ++ ["grooming_data"] else namespaces
  let namespaces :=
    if anyWordIn companyWords query_lower then namespaces ++ ["company_data"] else namespaces
  if namespaces.length == 1 then namespaces ++ ["health_data"] else namespaces

example : select_namespaces "hello" = ["user_summary", "health_data"] := by decide

example : select_namespaces "my dog has a skin infection" =
    ["user_summary", "health_data"] := by decide

example : select_namespaces "is my dog sick" = ["user_summary", "health_data"] := by decide

example : select_namespaces "what food and bath" =
    ["user_summary", "product_data", "grooming_data"] := by decide

/-! ## Pinecone service state, embedding, and context retrieval -/

/-- One match returned by an index query, already projected to the fields
`get_context` keeps: the metadata text, the similarity score, and the
metadata type tag (app/pinecone_service.py lines 129–133).  Scores are
modelled as `ℚ`; the code only ever compares them with the literal `0.7`. -/
structure SearchMatch where
  text : String
  score : ℚ
  mtype : String
deriving DecidableEq

/-- Oracle for the remote Pinecone index.  `query ns v k` is the result of
`self.index.query(vector=v, top_k=k, namespace=ns)`: either the list of
matches or `Except.error ()` when the remote call raises. -/
structure SemanticIndex where
  query : String → List ℚ → Nat → Except Unit (List SearchMatch)

/-- State of `PineconeService`: the `initialized` flag, the optional
sentence-transformers model (an oracle from text to an embedding or a
raised exception), and the optional index handle. -/
structure PineconeState where
  initialized : Bool
  embedding_model : Option (String → Except Unit (List ℚ))
  index : Option SemanticIndex

/-- Model of `PineconeService.is_ready` (app/pinecone_service.py lines
234–236): `self.initialized and self.index is not None`. -/
def is_ready (s : PineconeState) : Bool :=
  s.initialized && s.index.isSome

/-- Model of `PineconeService.get_embedding` (app/pinecone_service.py lines
65–75): the zero vector of dimension 384 when the service is not
initialized, the model is missing, or encoding raises; otherwise the model
output. -/
def get_embedding (s : PineconeState) (text : String) : List ℚ :=
  match s.embedding_model with
  | none => List.replicate 384 0
  | some encode =>
    if !s.initialized then List.replicate 384 0
    else
      match encode text with
      | Except.ok v => v
      | Except.error _ => List.replicate 384 0

/-- The `top_k` value `get_context` passes to `index.query`: the literal `3`
for every namespace (app/pinecone_service.py line 120). -/
def code_topK (_ns : String) : Nat := 3

/-- The similarity cutoff `get_context` applies to every match: the literal
`0.7` for every namespace (app/pinecone_service.py line 128, the test
`match.score > 0.7`). -/
def code_threshold (_ns : String) : ℚ := mkRat 7 10

/-- Modelled from the spec: the namespace-specific `topK` of section 4.5
step 2 — 5 for `user_history`, 3 otherwise.  No code under src computes a
per-namespace `topK`; this definition follows the spec words and is
compared against `code_topK`. -/
def spec_topK (ns : String) : Nat :=
  if ns = "user_history" then 5 else 3

/-- The loop body of `get_context` over the selected namespaces
(app/pinecone_service.py lines 116–137): each namespace is queried with
`code_topK`; on success the matches above `code_threshold` are kept, and a
raised exception is caught per namespace and mapped to the empty list. -/
def search_namespaces (index : SemanticIndex) (embedding : List ℚ) :
    List String → List (String × List SearchMatch)
  | [] => []
  | ns :: rest =>
    (match index.query ns embedding (code_topK ns) with
     | Except.ok sr => (ns, sr.filter (fun m => code_threshold ns < m.score))
     | Except.error _ => (ns, [])) :: search_namespaces index embedding rest

/-- Model of `PineconeService.get_context` (app/pinecone_service.py lines
101–144): the empty mapping when the service is not initialized or the
index handle is absent; otherwise the per-namespace search results over
`select_namespaces query`.  The Python function catches every exception
and returns a dictionary, which the model reflects by being a total
function into an association list. -/
def get_context (s : PineconeState) (user_id query : String) :
    List (String × List SearchMatch) :=
  match s.index with
  | none => []
  | some index =>
    if !s.initialized then []
    else
      let embedding := get_embedding s query
      let namespaces := select_namespaces query
      search_namespaces index embedding namespaces

/-- A Pinecone state with nothing initialized, as after a failed
`initialize`. -/
def notReadyPinecone : PineconeState :=
  { initialized := false, embedding_model := none, index := none }

/-! ## Redis session buffer and summarizer -/

/-- One stored chat message, the JSON object built by
`RedisService.add_message` (app/redis_service.py lines 89–94): both sides
truncated to 2000 code points, plus the timestamp and the owning user
identifier.  The wall-clock timestamp is modelled as a `Nat` supplied by
the caller. -/
structure Turn where
  user_message : String
  marshee_response : String
  timestamp : Nat
  user_id : String
deriving DecidableEq

/-- The message object `add_message` pushes for the given inputs. -/
def mkTurn (user_id user_message marshee_response : String) (now : Nat) : Turn :=
  { user_message := pyTruncate user_message 2000,
    marshee_response := pyTruncate marshee_response 2000,
    timestamp := now,
    user_id := user_id }

/-- One summary record written to the `user_history` namespace.  The prose
body produced by `generate_summary` (app/redis_service.py lines 198–239)
is never inspected by any claim under study, so the record carries the
snapshot it was derived from: the owning user and the chronological list
of source turns. -/
structure SummaryRecord where
  user_id : String
  source_turns : List Turn
deriving DecidableEq

/-- Outcome of the vector write of one flush: the write either completes or
raises. -/
inductive WriteOutcome where
  | ok
  | raise
deriving DecidableEq

/-- Environment of the Redis operations for one run: whether the Redis
client is initialized, whether `pinecone_service.is_ready()` holds, and the
outcome of the vector write. -/
structure Env where
  redisReady : Bool
  pineReady : Bool
  write : WriteOutcome
deriving DecidableEq

/-- Per-user session state: the `chat:{user_id}` list (newest first, as
`lpush` stores it), the `activity:{user_id}` timestamp, the summary records
written to the Semantic Store so far, and a ghost counter of
`create_and_save_summary` invocations (not part of the program state; it
counts calls for the threshold claims). -/
structure SessionState where
  buffer : List Turn
  activity : Option Nat
  store : List SummaryRecord
  flushes : Nat
deriving DecidableEq

/-- The state of a user with no session. -/
def initSession : SessionState :=
  { buffer := [], activity := none, store := [], flushes := 0 }

/-- Model of `RedisService.create_and_save_summary` (app/redis_service.py
lines 153–196).  The body reads the whole list, reverses it to
chronological order, generates the summary, and then:

* if `pinecone_service.is_ready()`, calls
  `pinecone_service.save_chat_summary(...)` (line 185).  That method is not
  defined under src; modelled from the spec, it embeds the summary and
  writes it as one vector record into the user-history namespace, and like
  any remote write it may raise.  Its outcome is `env.write`.  When it
  raises, the exception is caught by the outer handler (line 195) and the
  deleting pipeline (lines 188–191) never runs, so buffer and activity key
  survive.
* otherwise the write is skipped and the deleting pipeline runs anyway,
  clearing both keys.

The ghost counter `flushes` records the invocation. -/
def create_and_save_summary (env : Env) (user_id : String) (st : SessionState) :
    SessionState :=
  let st := { st with flushes := st.flushes + 1 }
  if !env.redisReady then st
  else
    let messages := st.buffer
    if messages.isEmpty then st
    else
      let chat_history := messages.reverse
      if env.pineReady then
        match env.write with
        | WriteOutcome.raise => st
        | WriteOutcome.ok =>
          { st with
            buffer := [],
            activity := none,
            store := st.store ++ [⟨user_id, chat_history⟩] }
      else
        { st with buffer := [], activity := none }

/-- Model of `RedisService.add_message` (app/redis_service.py lines
69–115): no-op when Redis is unavailable, when the user identifier is
shorter than 3 characters, or when either message side is empty; otherwise
pushes the truncated message to the front, refreshes the activity
timestamp, and — when the new list length reaches 10 — synchronously
invokes `create_and_save_summary`. -/
def add_message (env : Env) (user_id user_message marshee_response : String)
    (now : Nat) (st : SessionState) : SessionState :=
  if !env.redisReady then st
  else if user_id.length < 3 then st
  else if user_message.isEmpty || marshee_response.isEmpty then st
  else
    let st := { st with
      buffer := mkTurn user_id user_message marshee_response now :: st.buffer,
      activity := some now }
    let message_count := st.buffer.length
    if 10 ≤ message_count then create_and_save_summary env user_id st else st

/-- Run a chronological list of `add_message` calls for one user; each
entry is the user message, the assistant response, and the timestamp. -/
def add_messages (env : Env) (user_id : String) :
    List (String × String × Nat) → SessionState → SessionState
  | [], st => st
  | (um, mr, now) :: rest, st =>
    add_messages env user_id rest (add_message env user_id um mr now st)

/-- The chronological view of the buffer, as the summarizer reads it:
`lrange(chat_key, 0, -1)` followed by `reversed` (app/redis_service.py
lines 162–169), oldest first. -/
def read_chronological (st : SessionState) : List Turn :=
  st.buffer.reverse

/-- An input to `add_message` is accepted when both sides are nonempty
(the user-identifier check is separate). -/
def validMsg (p : String × String × Nat) : Bool :=
  !p.1.isEmpty && !p.2.1.isEmpty

/-- The turn a valid input produces, for a fixed user. -/
def inputTurn (user_id : String) (p : String × String × Nat) : Turn :=
  mkTurn user_id p.1 p.2.1 p.2.2

/-! ## Interleaving model of racing flush triggers

`create_and_save_summary` issues its Redis commands in two separated
batches: `lrange(chat_key, 0, -1)` at line 162, then — after the awaits on
`generate_summary` (line 180) and the vector write (line 185), where the
asyncio scheduler may run other tasks — the deleting pipeline at lines
188–191.  Each individual Redis command is atomic; the window between the
two batches is not protected by any lock, claim marker, or check.  The
events below are those atomic command batches, for one user key:

* `push t` — the `lpush` of a concurrent `add_message`;
* `flushRead task` — a flush task snapshots the whole list;
* `flushClear task` — that flush task resumes, its summary (derived from
  its snapshot) is written, and it deletes the whole list.

The state records the live list, the snapshots of pending flush tasks, and
every turn that has been covered by a written summary. -/

/-- One atomic step of the interleaving model. -/
inductive RedisEvent where
  | push (t : Turn)
  | flushRead (task : Nat)
  | flushClear (task : Nat)
deriving DecidableEq

/-- State shared by racing tasks for one user key. -/
structure ConcState where
  buffer : List Turn
  snapshots : List (Nat × List Turn)
  summarized : List Turn
deriving DecidableEq

/-- Effect of one atomic event, per the Redis commands the source issues:
`push` prepends, `flushRead` snapshots the whole list, `flushClear` writes
the summary of the snapshot and deletes the whole list (the pipeline at
app/redis_service.py lines 188–191 deletes the key outright, whatever the
list holds by then). -/
def concStep (s : ConcState) : RedisEvent → ConcState
  | RedisEvent.push t => { s with buffer := t :: s.buffer }
  | RedisEvent.flushRead task =>
    { s with snapshots := (task, s.buffer) :: s.snapshots }
  | RedisEvent.flushClear task =>
    match s.snapshots.lookup task with
    | some snap =>
      { buffer := [],
        snapshots := s.snapshots,
        summarized := s.summarized ++ snap.reverse }
    | none => s

/-- Run a schedule of atomic events. -/
def concRun (events : List RedisEvent) (s : ConcState) : ConcState :=
  events.foldl concStep s

/-! ## Context assembly seen by the conversation handler -/

/-- Modelled from the spec: the `buildContext` output shape of section 4.5,
recent turns from the Session Buffer plus retrieved snippets keyed by
namespace.  No code under src assembles this pair — the live path,
`process_user_message` (app/handlers/conversation_handler.py lines 20–44),
hands only the Pinecone mapping to its response builder. -/
structure ContextBundle where
  recentTurns : List Turn
  retrievedSnippets : List (String × List SearchMatch)
deriving DecidableEq

/-- Modelled from the spec: `buildContext` with the Semantic Store not
ready returns the buffer contents as `recentTurns` together with an empty
snippet mapping (spec sections 4.5 and 8). -/
def buildContext_spec_notReady (buffer : List Turn) : ContextBundle :=
  { recentTurns := buffer.reverse, retrievedSnippets := [] }

/-- The per-turn context `process_user_message` actually builds its reply
from (app/handlers/conversation_handler.py lines 23–31): the
`get_context` mapping alone.  The Session Buffer is not consulted on this
path — no caller of `generate_response_with_full_context` exists under
src — so the bundle has no recent-turns component; it is rendered here in
the spec shape with `recentTurns` necessarily empty. -/
def handler_context (s : PineconeState) (user_id query : String) :
    ContextBundle :=
  { recentTurns := [], retrievedSnippets := get_context s user_id query }

/-! ## Concrete sample data for counterexamples and witnesses -/

/-- A sample stored turn. -/
def demoTurn1 : Turn := mkTurn "user123" "my dog is sick" "please see a vet" 100

/-- Another sample stored turn. -/
def demoTurn2 : Turn := mkTurn "user123" "what food is best" "use good food" 101

/-- A session holding two turns, nothing yet in the store. -/
def demoSession : SessionState :=
  { buffer := [demoTurn2, demoTurn1], activity := some 101,
    store := [], flushes := 0 }

/-- A session holding a single turn — fewer than five. -/
def smallSession : SessionState :=
  { buffer := [demoTurn1], activity := some 100, store := [], flushes := 0 }

/-- A sample match whose score clears the cutoff. -/
def demoMatch : SearchMatch :=
  { text := "advice", score := mkRat 9 10, mtype := "knowledge" }

/-- An index oracle that answers every query with the one sample match. -/
def okIndex : SemanticIndex := ⟨fun _ _ _ => Except.ok [demoMatch]⟩

/-- A ready Pinecone state over `okIndex` (the embedding model is absent,
so queries use the zero vector — which `okIndex` ignores). -/
def readyPinecone : PineconeState :=
  { initialized := true, embedding_model := none, index := some okIndex }

/-- An index oracle that raises for the `health_data` namespace and
answers every other namespace with the sample match. -/
def failHealthIndex : SemanticIndex :=
  ⟨fun ns _ _ =>
    if ns = "health_data" then Except.error () else Except.ok [demoMatch]⟩

/-- A ready Pinecone state over `failHealthIndex`. -/
def readyFailPinecone : PineconeState :=
  { initialized := true, embedding_model := none,
    index := some failHealthIndex }

/-- The turn a concurrent `add_message` pushes while a flush is between
its read and its clear. -/
def droppedTurn : Turn :=
  mkTurn "user123" "my dog ate chocolate" "go to the vet now" 200

/-- The final state of the racing schedule: flush task 0 reads the buffer,
a concurrent append pushes `droppedTurn`, then flush task 0 writes its
summary and deletes the whole list. -/
def c8Final : ConcState :=
  concRun
    [RedisEvent.flushRead 0, RedisEvent.push droppedTurn,
     RedisEvent.flushClear 0]
    { buffer := [demoTurn1], snapshots := [], summarized := [] }

/-! ## Lemmas about the summarizer -/

/-- Every invocation of the summarizer bumps the ghost counter by one. -/
lemma flush_count (env : Env) (uid : String) (st : SessionState) :
    (create_and_save_summary env uid st).flushes = st.flushes + 1 := by
  unfold create_and_save_summary
  by_cases hr : env.redisReady <;> by_cases hb : st.buffer = [] <;>
    by_cases hp : env.pineReady <;> cases hw : env.write <;>
      simp [hr, hb, hp, hw, List.isEmpty_iff]

/-- A flush whose vector write completes, or whose write is skipped because
the store is not ready, deletes the chat key. -/
lemma flush_clears (env : Env) (uid : String) (st : SessionState)
    (hr : env.redisReady = true) (hok : env.pineReady = false ∨ env.write = WriteOutcome.ok)
    (hne : st.buffer ≠ []) :
    (create_and_save_summary env uid st).buffer = [] := by
  unfold create_and_save_summary
  rcases hok with hp | hw
  · simp [hr, hp, List.isEmpty_iff, hne]
  · by_cases hp : env.pineReady <;> simp [hr, hp, hw, List.isEmpty_iff, hne]

/-- A flush whose vector write raises leaves the whole state — buffer,
activity key, and store — untouched apart from the ghost counter. -/
lemma flush_write_raised (env : Env) (uid : String) (st : SessionState)
    (hp : env.pineReady = true) (hw : env.write = WriteOutcome.raise) :
    create_and_save_summary env uid st = { st with flushes := st.flushes + 1 } := by
  unfold create_and_save_summary
  by_cases hr : env.redisReady <;> by_cases hb : st.buffer = [] <;>
    simp [hr, hb, hp, hw, List.isEmpty_iff]

/-- A flush on an empty buffer changes nothing but the ghost counter. -/
lemma flush_empty (env : Env) (uid : String) (st : SessionState)
    (hb : st.buffer = []) :
    create_and_save_summary env uid st = { st with flushes := st.flushes + 1 } := by
  unfold create_and_save_summary
  by_cases hr : env.redisReady <;> simp [hr, hb, List.isEmpty_iff]

/-- A completed flush writes exactly one summary record holding the
chronological snapshot of the buffer, and clears both keys. -/
lemma flush_writes_summary (env : Env) (uid : String) (st : SessionState)
    (hr : env.redisReady = true) (hp : env.pineReady = true)
    (hw : env.write = WriteOutcome.ok) (hne : st.buffer ≠ []) :
    create_and_save_summary env uid st =
      { buffer := [], activity := none,
        store := st.store ++ [⟨uid, st.buffer.reverse⟩],
        flushes := st.flushes + 1 } := by
  unfold create_and_save_summary
  simp [hr, hp, hw, List.isEmpty_iff, hne]

/-- A flush with the store not ready skips the write — the store is
unchanged — yet still clears both keys. -/
lemma flush_skips_write (env : Env) (uid : String) (st : SessionState)
    (hr : env.redisReady = true) (hp : env.pineReady = false)
    (hne : st.buffer ≠ []) :
    create_and_save_summary env uid st =
      { buffer := [], activity := none, store := st.store,
        flushes := st.flushes + 1 } := by
  unfold create_and_save_summary
  simp [hr, hp, List.isEmpty_iff, hne]

/-- A flush either clears the buffer or leaves it exactly as it was. -/
lemma flush_buffer_cases (env : Env) (uid : String) (st : SessionState) :
    (create_and_save_summary env uid st).buffer = [] ∨
    (create_and_save_summary env uid st).buffer = st.buffer := by
  unfold create_and_save_summary
  by_cases hr : env.redisReady <;> by_cases hb : st.buffer = [] <;>
    by_cases hp : env.pineReady <;> cases hw : env.write <;>
      simp [hr, hb, hp, hw, List.isEmpty_iff]

/-! ## Lemmas about append -/

/-- An accepted append below the trigger point only pushes the turn and
refreshes the activity key. -/
lemma add_message_under (env : Env) (uid um mr : String) (now : Nat)
    (st : SessionState) (hr : env.redisReady = true) (huid : 3 ≤ uid.length)
    (hum : um.isEmpty = false) (hmr : mr.isEmpty = false)
    (hlen : st.buffer.length ≤ 8) :
    add_message env uid um mr now st =
      { st with buffer := mkTurn uid um mr now :: st.buffer,
                activity := some now } := by
  unfold add_message
  simp [hr, Nat.not_lt_of_le huid, hum, hmr]
  omega

/-- An accepted append that brings the list to the threshold invokes the
summarizer synchronously on the pushed state. -/
lemma add_message_trigger (env : Env) (uid um mr : String) (now : Nat)
    (st : SessionState) (hr : env.redisReady = true) (huid : 3 ≤ uid.length)
    (hum : um.isEmpty = false) (hmr : mr.isEmpty = false)
    (hlen : st.buffer.length = 9) :
    add_message env uid um mr now st =
      create_and_save_summary env uid
        { st with buffer := mkTurn uid um mr now :: st.buffer,
                  activity := some now } := by
  unfold add_message
  simp [hr, Nat.not_lt_of_le huid, hum, hmr, hlen]

/-- Running a batch of appends splits over concatenation of the inputs. -/
lemma add_messages_append (env : Env) (uid : String)
    (l₁ l₂ : List (String × String × Nat)) (st : SessionState) :
    add_messages env uid (l₁ ++ l₂) st =
      add_messages env uid l₂ (add_messages env uid l₁ st) := by
  induction l₁ generalizing st with
  | nil => rfl
  | cons p rest ih =>
    obtain ⟨um, mr, now⟩ := p
    simp [add_messages, ih]

/-- A batch of accepted appends that keeps the list below the trigger point
only pushes turns: the buffer grows newest-first by exactly the appended
turns, and neither the ghost counter nor the store moves. -/
lemma add_messages_under (env : Env) (uid : String)
    (hr : env.redisReady = true) (huid : 3 ≤ uid.length) :
    ∀ (inputs : List (String × String × Nat)) (st : SessionState),
      inputs.all validMsg = true → st.buffer.length + inputs.length ≤ 9 →
      (add_messages env uid inputs st).buffer =
          (inputs.map (inputTurn uid)).reverse ++ st.buffer ∧
      (add_messages env uid inputs st).flushes = st.flushes ∧
      (add_messages env uid inputs st).store = st.store := by
  intro inputs
  induction inputs with
  | nil => intro st _ _; simp [add_messages]
  | cons p rest ih =>
    intro st hvalid hlen
    obtain ⟨um, mr, now⟩ := p
    simp only [List.all_cons, Bool.and_eq_true] at hvalid
    obtain ⟨hv, hvrest⟩ := hvalid
    simp only [validMsg, Bool.and_eq_true, Bool.not_eq_true'] at hv
    simp only [List.length_cons] at hlen
    rw [add_messages,
        add_message_under env uid um mr now st hr huid hv.1 hv.2 (by omega)]
    obtain ⟨hb, hf, hs⟩ := ih
      { st with buffer := mkTurn uid um mr now :: st.buffer, activity := some now }
      hvrest (by simp; omega)
    refine ⟨?_, by simpa using hf, by simpa using hs⟩
    rw [hb]
    simp [inputTurn]

/-- Appending on the right preserves the suffix relation. -/
lemma isSuffix_append_right {α : Type} {A B : List α} (C : List α)
    (h : A <:+ B) : A ++ C <:+ B ++ C := by
  obtain ⟨t, ht⟩ := h
  exact ⟨t, by rw [← List.append_assoc, ht]⟩

/-- One accepted append leaves the buffer either cleared (a triggered flush
ran to the deleting pipeline) or exactly the pushed list. -/
lemma add_message_buffer_cases (env : Env) (uid um mr : String) (now : Nat)
    (st : SessionState) (hr : env.redisReady = true) (huid : 3 ≤ uid.length)
    (hum : um.isEmpty = false) (hmr : mr.isEmpty = false) :
    (add_message env uid um mr now st).buffer = [] ∨
    (add_message env uid um mr now st).buffer =
      mkTurn uid um mr now :: st.buffer := by
  unfold add_message
  by_cases h10 : 10 ≤ (mkTurn uid um mr now :: st.buffer).length
  · simp only [hr, Bool.not_true, Bool.false_eq_true, if_false,
      Nat.not_lt_of_le huid, hum, hmr, Bool.or_self, ite_false, h10, if_true]
    rcases flush_buffer_cases env uid
        { st with buffer := mkTurn uid um mr now :: st.buffer,
                  activity := some now } with h | h
    · exact Or.inl h
    · exact Or.inr h
  · have h9 : ¬ 9 ≤ st.buffer.length := by simp at h10; omega
    simp [hr, Nat.not_lt_of_le huid, hum, hmr, h9]

/-- Whatever mix of pushes and triggered flushes a batch of accepted
appends performs, the chronological view of the resulting buffer is a
contiguous final segment of the appended turns, in append order. -/
lemma add_messages_suffix (env : Env) (uid : String)
    (hr : env.redisReady = true) (huid : 3 ≤ uid.length) :
    ∀ (inputs : List (String × String × Nat)) (st : SessionState),
      inputs.all validMsg = true →
      (add_messages env uid inputs st).buffer.reverse <:+
        st.buffer.reverse ++ inputs.map (inputTurn uid) := by
  intro inputs
  induction inputs with
  | nil =>
    intro st _
    simp [add_messages]
  | cons p rest ih =>
    intro st hvalid
    obtain ⟨um, mr, now⟩ := p
    simp only [List.all_cons, Bool.and_eq_true] at hvalid
    obtain ⟨hv, hvrest⟩ := hvalid
    simp only [validMsg, Bool.and_eq_true, Bool.not_eq_true'] at hv
    have ih' := ih (add_message env uid um mr now st) hvrest
    have hgoal : add_messages env uid ((um, mr, now) :: rest) st =
        add_messages env uid rest (add_message env uid um mr now st) := rfl
    rw [hgoal]
    rcases add_message_buffer_cases env uid um mr now st hr huid hv.1 hv.2
      with hb | hb
    · rw [hb] at ih'
      simp only [List.reverse_nil, List.nil_append] at ih'
      refine ih'.trans ?_
      exact ⟨st.buffer.reverse ++ [inputTurn uid (um, mr, now)], by
        simp [inputTurn]⟩
    · rw [hb] at ih'
      simp only [List.reverse_cons] at ih'
      simpa [inputTurn, List.append_assoc] using ih'

/-- A run of exactly ten accepted appends from an empty session ends with
an empty buffer and exactly one summarizer invocation, provided the flush
reaches its deleting pipeline (the store is not ready, or the vector write
completes). -/
lemma run_ten (env : Env) (uid : String)
    (inputs : List (String × String × Nat))
    (hr : env.redisReady = true) (huid : 3 ≤ uid.length)
    (hvalid : inputs.all validMsg = true) (hlen : inputs.length = 10)
    (hok : env.pineReady = false ∨ env.write = WriteOutcome.ok) :
    (add_messages env uid inputs initSession).buffer = [] ∧
    (add_messages env uid inputs initSession).flushes = 1 := by
  rcases List.eq_nil_or_concat inputs with hnil | ⟨front, pl, hfr⟩
  · rw [hnil] at hlen; simp at hlen
  · subst hfr
    simp only [List.concat_eq_append] at hvalid hlen ⊢
    simp only [List.all_append, List.all_cons, List.all_nil,
      Bool.and_eq_true] at hvalid
    obtain ⟨hvfront, hvpl, -⟩ := hvalid
    have hfront9 : front.length = 9 := by
      simp only [List.length_append, List.length_cons, List.length_nil] at hlen
      omega
    obtain ⟨hb, hf, -⟩ := add_messages_under env uid hr huid front initSession
      hvfront (by simp [initSession, hfront9])
    rw [add_messages_append]
    obtain ⟨um, mr, now⟩ := pl
    simp only [validMsg, Bool.and_eq_true, Bool.not_eq_true'] at hvpl
    have hAlen : (add_messages env uid front initSession).buffer.length = 9 := by
      rw [hb]; simp [initSession, hfront9]
    have hstep : add_messages env uid [(um, mr, now)]
          (add_messages env uid front initSession) =
        create_and_save_summary env uid
          { add_messages env uid front initSession with
            buffer := mkTurn uid um mr now ::
              (add_messages env uid front initSession).buffer,
            activity := some now } := by
      have : add_messages env uid [(um, mr, now)]
            (add_messages env uid front initSession) =
          add_message env uid um mr now
            (add_messages env uid front initSession) := rfl
      rw [this,
        add_message_trigger env uid um mr now _ hr huid hvpl.1 hvpl.2 hAlen]
    rw [hstep]
    constructor
    · exact flush_clears env uid _ hr hok (by simp)
    · rw [flush_count]
      simp only [hf]
      simp [initSession]

/-! ## Lemmas about context retrieval -/

/-- When the state carries an index and the flag, `get_context` is the
per-namespace search over the routed namespaces. -/
lemma get_context_eq (s : PineconeState) (index : SemanticIndex)
    (hidx : s.index = some index) (hinit : s.initialized = true)
    (uid query : String) :
    get_context s uid query =
      search_namespaces index (get_embedding s query)
        (select_namespaces query) := by
  unfold get_context
  rw [hidx]
  simp [hinit]

/-- Swapping the index handle does not change the query embedding. -/
lemma get_embedding_update_index (s : PineconeState)
    (idx2 : Option SemanticIndex) (q : String) :
    get_embedding { s with index := idx2 } q = get_embedding s q := rfl

/-- A namespace whose query raises still gets an entry, mapped to the
empty list. -/
lemma search_mem_error (index : SemanticIndex) (emb : List ℚ) (ns : String) :
    ∀ l : List String, ns ∈ l →
      index.query ns emb (code_topK ns) = Except.error () →
      (ns, ([] : List SearchMatch)) ∈ search_namespaces index emb l := by
  intro l
  induction l with
  | nil => intro h _; simp at h
  | cons ns0 rest ih =>
    intro hmem hfail
    rw [List.mem_cons] at hmem
    rcases hmem with h | h
    · subst h
      simp [search_namespaces, hfail]
    · exact List.mem_cons_of_mem _ (ih h hfail)

/-- The outcome at one namespace does not leak into any other: two index
oracles that agree outside `ns` yield the same entry for every other
namespace. -/
lemma search_lookup_frame (index index2 : SemanticIndex) (emb : List ℚ)
    (ns : String)
    (hagree : ∀ ns2, ns2 ≠ ns → index2.query ns2 = index.query ns2) :
    ∀ (l : List String) (ns2 : String), ns2 ≠ ns →
      (search_namespaces index emb l).lookup ns2 =
      (search_namespaces index2 emb l).lookup ns2 := by
  intro l
  induction l with
  | nil => intro ns2 _; rfl
  | cons ns0 rest ih =>
    intro ns2 hne
    by_cases h0 : ns0 = ns
    · subst h0
      have hbeq : (ns2 == ns0) = false := by
        simp only [beq_eq_false_iff_ne, ne_eq]
        exact hne
      cases hq : index.query ns0 emb (code_topK ns0) <;>
        cases hq2 : index2.query ns0 emb (code_topK ns0) <;>
          simp [search_namespaces, hq, hq2, List.lookup, hbeq, ih ns2 hne]
    · have heq : index2.query ns0 = index.query ns0 := hagree ns0 h0
      unfold search_namespaces
      rw [heq]
      cases hq : index.query ns0 emb (code_topK ns0) <;>
        cases hb : ns2 == ns0 <;>
          simp [List.lookup, hb, ih ns2 hne]

/-- Every match inside an entry of the search results cleared its
namespace threshold. -/
lemma search_entry_filtered (index : SemanticIndex) (emb : List ℚ)
    (ns : String) (results : List SearchMatch) (m : SearchMatch) :
    ∀ l : List String, (ns, results) ∈ search_namespaces index emb l →
      m ∈ results → code_threshold ns < m.score := by
  intro l
  induction l with
  | nil => intro h _; simp [search_namespaces] at h
  | cons ns0 rest ih =>
    intro hmem hm
    unfold search_namespaces at hmem
    rw [List.mem_cons] at hmem
    rcases hmem with h | h
    · cases hq : index.query ns0 emb (code_topK ns0) with
      | ok sr =>
        rw [hq] at h
        rw [Prod.mk.injEq] at h
        obtain ⟨h1, h2⟩ := h
        subst h1
        rw [h2] at hm
        have := List.mem_filter.mp hm
        exact of_decide_eq_true this.2
      | error e =>
        rw [hq] at h
        rw [Prod.mk.injEq] at h
        obtain ⟨h1, h2⟩ := h
        rw [h2] at hm
        simp at hm
    · exact ih h hm

/-! ## Lemmas about the namespace router -/

/-- The routing result always starts from the `user_summary` seed, whatever
rules fire. -/
lemma router_mem_user_summary (q : String) :
    "user_summary" ∈ select_namespaces q := by
  unfold select_namespaces
  cases h1 : anyWordIn healthWords (strToLower q) <;>
    cases h2 : anyWordIn productWords (strToLower q) <;>
      cases h3 : anyWordIn groomingWords (strToLower q) <;>
        cases h4 : anyWordIn companyWords (strToLower q) <;>
          simp [h1, h2, h3, h4]

/-- When no keyword rule fires, the router falls back to `health_data`. -/
lemma router_fallback (q : String)
    (h1 : anyWordIn healthWords (strToLower q) = false)
    (h2 : anyWordIn productWords (strToLower q) = false)
    (h3 : anyWordIn groomingWords (strToLower q) = false)
    (h4 : anyWordIn companyWords (strToLower q) = false) :
    "health_data" ∈ select_namespaces q := by
  unfold select_namespaces
  simp [h1, h2, h3, h4]

/-! ## Claim theorems -/

/-- C1, counterexample: with a nonempty two-turn buffer and the Semantic
Store not ready, the vector write does not occur (the store is unchanged),
yet the flush still clears the buffer — against the claim that a write
that does not occur leaves the buffer intact. -/
theorem C1_counterexample :
    demoSession.buffer ≠ [] ∧
    (create_and_save_summary ⟨true, false, WriteOutcome.ok⟩ "user123"
        demoSession).store = demoSession.store ∧
    (create_and_save_summary ⟨true, false, WriteOutcome.ok⟩ "user123"
        demoSession).buffer = [] := by
  decide

/-- C1, amended: a flush leaves the buffer (and the activity key and the
store) untouched exactly when the vector write raises; when the write
completes, the summary record is stored and the buffer is cleared; and
when the Semantic Store is not ready the write is skipped yet the buffer
is still cleared. -/
theorem C1_flush_clear_discipline (env : Env) (uid : String)
    (st : SessionState) (hr : env.redisReady = true) (hne : st.buffer ≠ []) :
    (env.pineReady = true → env.write = WriteOutcome.raise →
      create_and_save_summary env uid st =
        { st with flushes := st.flushes + 1 }) ∧
    (env.pineReady = true → env.write = WriteOutcome.ok →
      create_and_save_summary env uid st =
        { buffer := [], activity := none,
          store := st.store ++ [⟨uid, st.buffer.reverse⟩],
          flushes := st.flushes + 1 }) ∧
    (env.pineReady = false →
      create_and_save_summary env uid st =
        { buffer := [], activity := none, store := st.store,
          flushes := st.flushes + 1 }) :=
  ⟨fun hp hw => flush_write_raised env uid st hp hw,
   fun hp hw => flush_writes_summary env uid st hr hp hw hne,
   fun hp => flush_skips_write env uid st hr hp hne⟩

/-- Witness for C1: the raising-write branch evaluated on the sample
session. -/
theorem C1_flush_clear_discipline_witness :
    demoSession.buffer ≠ [] ∧
    create_and_save_summary ⟨true, true, WriteOutcome.raise⟩ "user123"
        demoSession =
      { demoSession with flushes := demoSession.flushes + 1 } :=
  ⟨by decide,
   (C1_flush_clear_discipline ⟨true, true, WriteOutcome.raise⟩ "user123"
      demoSession (by decide) (by decide)).1 (by decide) (by decide)⟩

/-- C2, counterexample: a buffer holding a single turn — fewer than
five — is still flushed: the summary record is written and the buffer is
cleared, against the claim that such a flush does nothing. -/
theorem C2_counterexample :
    smallSession.buffer.length < 5 ∧
    (create_and_save_summary ⟨true, true, WriteOutcome.ok⟩ "user123"
        smallSession).buffer = [] ∧
    (create_and_save_summary ⟨true, true, WriteOutcome.ok⟩ "user123"
        smallSession).store ≠ smallSession.store := by
  decide

/-- C2, amended: the summarizer has no minimum-size guard — only an empty
buffer makes the flush a no-op; any nonempty buffer, however small, is
summarized (when the store accepts the write) and cleared. -/
theorem C2_flush_small_buffer (env : Env) (uid : String) (st : SessionState)
    (hr : env.redisReady = true) :
    (st.buffer = [] →
      create_and_save_summary env uid st =
        { st with flushes := st.flushes + 1 }) ∧
    (st.buffer ≠ [] → env.pineReady = true → env.write = WriteOutcome.ok →
      (create_and_save_summary env uid st).buffer = [] ∧
      (create_and_save_summary env uid st).store =
        st.store ++ [⟨uid, st.buffer.reverse⟩]) := by
  constructor
  · exact fun hb => flush_empty env uid st hb
  · intro hne hp hw
    rw [flush_writes_summary env uid st hr hp hw hne]
    exact ⟨rfl, rfl⟩

/-- Witness for C2: the single-turn session flushed with a completing
write. -/
theorem C2_flush_small_buffer_witness :
    smallSession.buffer ≠ [] ∧
    (create_and_save_summary ⟨true, true, WriteOutcome.ok⟩ "user123"
        smallSession).buffer = [] ∧
    (create_and_save_summary ⟨true, true, WriteOutcome.ok⟩ "user123"
        smallSession).store =
      smallSession.store ++ [⟨"user123", smallSession.buffer.reverse⟩] :=
  ⟨by decide,
   (C2_flush_small_buffer ⟨true, true, WriteOutcome.ok⟩ "user123"
      smallSession (by decide)).2 (by decide) (by decide) (by decide)⟩

/-- C3, counterexample: the router never emits `user_history` — the
per-user namespace the code seeds is `user_summary` — so neither example
query includes `user_history`. -/
theorem C3_counterexample :
    "user_history" ∉ select_namespaces "hello" ∧
    "user_history" ∉ select_namespaces "my dog has a skin infection" := by
  decide

/-- C3, amended: every routing result includes `user_summary` (not
`user_history`); when no keyword rule fires the router falls back to
`health_data`; the query about a skin infection matches no health keyword
and lands on the fallback, so it includes `health_data` and
`user_summary`, as does the query `hello`. -/
theorem C3_router_membership (q : String) :
    "user_summary" ∈ select_namespaces q ∧
    (anyWordIn healthWords (strToLower q) = false →
     anyWordIn productWords (strToLower q) = false →
     anyWordIn groomingWords (strToLower q) = false →
     anyWordIn companyWords (strToLower q) = false →
     "health_data" ∈ select_namespaces q) ∧
    select_namespaces "my dog has a skin infection" =
      ["user_summary", "health_data"] ∧
    select_namespaces "hello" = ["user_summary", "health_data"] :=
  ⟨router_mem_user_summary q, router_fallback q, by decide, by decide⟩

/-- Witness for C3: the fallback branch at the query `hello`. -/
theorem C3_router_membership_witness :
    anyWordIn healthWords (strToLower "hello") = false ∧
    "user_summary" ∈ select_namespaces "hello" ∧
    "health_data" ∈ select_namespaces "hello" :=
  ⟨by decide,
   (C3_router_membership "hello").1,
   (C3_router_membership "hello").2.1 (by decide) (by decide) (by decide)
     (by decide)⟩

/-- C4: from an empty session, ten accepted appends invoke the summarizer
exactly once — zero invocations across the first nine appends, one after
the tenth, which is the append whose count reaches the threshold — and
the chronological read after that flush is empty.  The flush is assumed to
reach its deleting pipeline (the store is not ready, or its write
completes); a raising write is the subject of C1. -/
theorem C4_ten_appends_once (env : Env) (uid : String)
    (inputs : List (String × String × Nat))
    (hr : env.redisReady = true) (huid : 3 ≤ uid.length)
    (hvalid : inputs.all validMsg = true) (hlen : inputs.length = 10)
    (hok : env.pineReady = false ∨ env.write = WriteOutcome.ok) :
    (add_messages env uid (inputs.take 9) initSession).flushes = 0 ∧
    (add_messages env uid inputs initSession).flushes = 1 ∧
    read_chronological (add_messages env uid inputs initSession) = [] := by
  have hvtake : (inputs.take 9).all validMsg = true := by
    rw [List.all_eq_true] at hvalid ⊢
    exact fun x hx => hvalid x (List.take_subset 9 inputs hx)
  have hltake : initSession.buffer.length + (inputs.take 9).length ≤ 9 := by
    simp [initSession, List.length_take, hlen]
  obtain ⟨-, hf9, -⟩ :=
    add_messages_under env uid hr huid (inputs.take 9) initSession hvtake hltake
  obtain ⟨hbuf, hflush⟩ := run_ten env uid inputs hr huid hvalid hlen hok
  refine ⟨?_, hflush, ?_⟩
  · rw [hf9]; rfl
  · unfold read_chronological
    rw [hbuf]
    rfl

/-- Witness for C4: ten identical accepted appends, Semantic Store not
ready. -/
theorem C4_ten_appends_once_witness :
    (add_messages ⟨true, false, WriteOutcome.ok⟩ "user123"
        ((List.replicate 10 ("hi", "yo", 5)).take 9) initSession).flushes
      = 0 ∧
    (add_messages ⟨true, false, WriteOutcome.ok⟩ "user123"
        (List.replicate 10 ("hi", "yo", 5)) initSession).flushes = 1 ∧
    read_chronological (add_messages ⟨true, false, WriteOutcome.ok⟩ "user123"
        (List.replicate 10 ("hi", "yo", 5)) initSession) = [] :=
  C4_ten_appends_once ⟨true, false, WriteOutcome.ok⟩ "user123"
    (List.replicate 10 ("hi", "yo", 5)) (by decide) (by decide) (by decide)
    (by decide) (Or.inl (by decide))

/-- C7: the buffer is stored newest-first — a run of accepted appends that
stays under the threshold leaves the buffer as the reverse of the appended
turns — and the chronological read returns exactly those turns in append
order; for arbitrarily long runs (where triggered flushes may clear the
list) the read is always a contiguous final segment of the appended turns,
still in append order. -/
theorem C7_append_order (env : Env) (uid : String)
    (inputs : List (String × String × Nat))
    (hr : env.redisReady = true) (huid : 3 ≤ uid.length)
    (hvalid : inputs.all validMsg = true) :
    read_chronological (add_messages env uid inputs initSession) <:+
      inputs.map (inputTurn uid) ∧
    (inputs.length ≤ 9 →
      (add_messages env uid inputs initSession).buffer =
        (inputs.map (inputTurn uid)).reverse ∧
      read_chronological (add_messages env uid inputs initSession) =
        inputs.map (inputTurn uid)) := by
  constructor
  · have h := add_messages_suffix env uid hr huid inputs initSession hvalid
    simpa [initSession, read_chronological] using h
  · intro hlen
    obtain ⟨hb, -, -⟩ := add_messages_under env uid hr huid inputs initSession
      hvalid (by simp [initSession]; omega)
    constructor
    · rw [hb]; simp [initSession]
    · unfold read_chronological
      rw [hb]
      simp [initSession]

/-- Witness for C7: two appends read back in append order. -/
theorem C7_append_order_witness :
    read_chronological (add_messages ⟨true, true, WriteOutcome.ok⟩ "user123"
        [("a", "b", 1), ("c", "d", 2)] initSession) =
      [mkTurn "user123" "a" "b" 1, mkTurn "user123" "c" "d" 2] :=
  ((C7_append_order ⟨true, true, WriteOutcome.ok⟩ "user123"
      [("a", "b", 1), ("c", "d", 2)] (by decide) (by decide) (by decide)).2
    (by decide)).2

/-- C5, counterexample: the code passes `top_k=3` for every namespace —
including the per-user one, against the spec value of 5 — and applies the
same `0.7` cutoff everywhere, so the per-user threshold is not lower than
the knowledge-namespace thresholds. -/
theorem C5_counterexample :
    code_topK "user_history" = 3 ∧
    spec_topK "user_history" = 5 ∧
    code_topK "user_history" ≠ spec_topK "user_history" ∧
    ¬ code_threshold "user_history" < code_threshold "health_data" ∧
    ¬ code_threshold "user_summary" < code_threshold "health_data" := by
  decide

/-- C5, amended: every selected namespace is queried with the same
`topK = 3` and filtered by the same `0.7` cutoff, and no match at or below
that cutoff ever appears in the returned context. -/
theorem C5_uniform_retrieval_filters (s : PineconeState)
    (uid query ns : String) (results : List SearchMatch) (m : SearchMatch)
    (hmem : (ns, results) ∈ get_context s uid query) (hm : m ∈ results) :
    code_threshold ns < m.score ∧ code_topK ns = 3 ∧
    code_threshold ns = mkRat 7 10 := by
  refine ⟨?_, rfl, rfl⟩
  unfold get_context at hmem
  cases hidx : s.index with
  | none => rw [hidx] at hmem; simp at hmem
  | some index =>
    rw [hidx] at hmem
    cases hinit : s.initialized with
    | false => rw [hinit] at hmem; simp at hmem
    | true =>
      rw [hinit] at hmem
      simp only [Bool.not_true, Bool.false_eq_true, if_false] at hmem
      exact search_entry_filtered index _ ns results m _ hmem hm

/-- Witness for C5: the sample index returns a match scoring `0.9`, which
survives the filter in the `user_summary` namespace. -/
theorem C5_uniform_retrieval_filters_witness :
    ("user_summary", [demoMatch]) ∈
      get_context readyPinecone "user123" "hello" ∧
    code_threshold "user_summary" < demoMatch.score :=
  ⟨by decide,
   (C5_uniform_retrieval_filters readyPinecone "user123" "hello"
      "user_summary" [demoMatch] demoMatch (by decide) (by decide)).1⟩

/-- C6, counterexample: with the Semantic Store not ready and a nonempty
Session Buffer, the context the handler builds its reply from is the bare
empty mapping — it carries no recent turns from the buffer at all, against
the claimed `recentTurns = buffer contents`. -/
theorem C6_counterexample :
    handler_context notReadyPinecone "user123" "hello" ≠
      buildContext_spec_notReady demoSession.buffer ∧
    (handler_context notReadyPinecone "user123" "hello").recentTurns = [] ∧
    (buildContext_spec_notReady demoSession.buffer).recentTurns ≠ [] := by
  decide

/-- C6, amended: with the Semantic Store not ready, `get_context` returns
the empty mapping — no exception is modelled to escape, the function being
total — and the handler builds its reply from a context with no retrieved
snippets and no recent turns; the Session Buffer contents are not part of
it. -/
theorem C6_not_ready_context (s : PineconeState) (uid query : String)
    (h : is_ready s = false) :
    get_context s uid query = [] ∧
    handler_context s uid query =
      { recentTurns := [], retrievedSnippets := [] } := by
  have hg : get_context s uid query = [] := by
    unfold get_context
    cases hidx : s.index with
    | none => rfl
    | some index =>
      unfold is_ready at h
      rw [hidx] at h
      simp only [Option.isSome_some, Bool.and_true] at h
      rw [h]
      rfl
  refine ⟨hg, ?_⟩
  unfold handler_context
  rw [hg]

/-- Witness for C6: the fully uninitialized Pinecone state. -/
theorem C6_not_ready_context_witness :
    get_context notReadyPinecone "user123" "hello" = [] ∧
    handler_context notReadyPinecone "user123" "hello" =
      { recentTurns := [], retrievedSnippets := [] } :=
  C6_not_ready_context notReadyPinecone "user123" "hello" (by decide)

/-- C8, code bug: nothing serializes two flush triggers — between the read
(line 162) and the deleting pipeline (lines 188–191) the coroutine awaits,
so a concurrent append can push a turn that the clear then deletes.  In
the racing schedule `c8Final`, the turn pushed during the window is
neither in the buffer nor covered by any written summary — dropped
entirely — while the claim requires the read-then-clear window to be a
per-user critical section in which no turn is dropped. -/
theorem C8_flush_race_drops_turn :
    c8Final.buffer = [] ∧
    droppedTurn ∉ c8Final.summarized ∧
    droppedTurn ∉ c8Final.buffer ∧
    demoTurn1 ∈ c8Final.summarized := by
  decide

/-- C9: the embedding operation is total — for every state and text it
either returns the encoder output (service initialized, model present,
encoding succeeded) or the 384-dimensional zero vector; no failure mode
escapes. -/
theorem C9_embedding_total (s : PineconeState) (text : String) :
    (∃ encode, s.embedding_model = some encode ∧ s.initialized = true ∧
      encode text = Except.ok (get_embedding s text)) ∨
    get_embedding s text = List.replicate 384 0 := by
  cases hm : s.embedding_model with
  | none =>
    right
    unfold get_embedding
    rw [hm]
  | some encode =>
    cases hinit : s.initialized with
    | false =>
      right
      unfold get_embedding
      rw [hm, hinit]
      rfl
    | true =>
      cases he : encode text with
      | ok v =>
        left
        refine ⟨encode, rfl, rfl, ?_⟩
        unfold get_embedding
        rw [hm, hinit]
        simp [he]
      | error e =>
        right
        unfold get_embedding
        rw [hm, hinit]
        simp [he]

/-- C10: a query failure in one selected namespace is isolated to that
namespace — the failed namespace still appears, mapped to the empty list,
and for every other namespace the retrieved entry is the same as with any
index oracle that agrees outside the failed namespace; `get_context` is a
total function, so the per-namespace exception never escapes it. -/
theorem C10_namespace_failure_isolated (s : PineconeState)
    (index index2 : SemanticIndex)
    (hidx : s.index = some index) (hinit : s.initialized = true)
    (uid query ns : String) (hns : ns ∈ select_namespaces query)
    (hfail : index.query ns (get_embedding s query) (code_topK ns) =
      Except.error ())
    (hagree : ∀ ns2, ns2 ≠ ns → index2.query ns2 = index.query ns2) :
    (ns, ([] : List SearchMatch)) ∈ get_context s uid query ∧
    ∀ ns2, ns2 ≠ ns →
      (get_context s uid query).lookup ns2 =
      (get_context { s with index := some index2 } uid query).lookup ns2 := by
  rw [get_context_eq s index hidx hinit uid query]
  constructor
  · exact search_mem_error index _ ns _ hns hfail
  · intro ns2 hne
    rw [get_context_eq { s with index := some index2 } index2 rfl hinit
        uid query,
      get_embedding_update_index]
    exact search_lookup_frame index index2 _ ns hagree _ ns2 hne

/-- Witness for C10: the sample index raising only for `health_data`,
compared against itself. -/
theorem C10_namespace_failure_isolated_witness :
    ("health_data", ([] : List SearchMatch)) ∈
      get_context readyFailPinecone "user123" "hello" ∧
    (get_context readyFailPinecone "user123" "hello").lookup "user_summary" =
      (get_context { readyFailPinecone with index := some failHealthIndex }
          "user123" "hello").lookup "user_summary" :=
  ⟨(C10_namespace_failure_isolated readyFailPinecone failHealthIndex
      failHealthIndex rfl rfl "user123" "hello" "health_data" (by decide)
      rfl (fun _ _ => rfl)).1,
   (C10_namespace_failure_isolated readyFailPinecone failHealthIndex
      failHealthIndex rfl rfl "user123" "hello" "health_data" (by decide)
      rfl (fun _ _ => rfl)).2 "user_summary" (by decide)⟩

end Marshee
